import Mathlib

/-!
# DesignPatterns: Open-Closed filter and Liskov rectangle examples

A shallow embedding of `OpenClosed.cpp` and `LiskovSubstitution.cpp`.

* A `Product*` held in a `std::vector<Product*>` is represented by the record it
  points to; vectors are lists, `push_back` appends at the end. The definitions
  under `Ptr` embed the same methods over pointers that may be null, where a
  call that dereferences `nullptr` does not return.
* `Specification<T>` is the one-method interface `isSatisfied`; a specification
  without side effects is a Boolean-valued function on items, and
  `StatefulSpecification` passes the program state explicitly for those with
  side effects.
* C++ `int` is a 32-bit two's complement integer: values are `Int`s and the
  result of every multiplication is reduced by `wrapInt`.
-/

namespace DesignPatterns

/-! ## OpenClosed.cpp -/

/-- The enumeration `enum class Color { RED, GREEN, BLUE }`. -/
inductive Color where
  | RED
  | GREEN
  | BLUE
  deriving DecidableEq

/-- The enumeration `enum class Size { SMALL, MEDIUM, LARGE }`. -/
inductive Size where
  | SMALL
  | MEDIUM
  | LARGE
  deriving DecidableEq

/-- The record `struct Product { std::string name; Color color; Size size; }`. -/
structure Product where
  name : String
  color : Color
  size : Size
  deriving DecidableEq

/-- The interface `template <typename T> struct Specification` with its single
virtual method `isSatisfied`. -/
structure Specification (T : Type) where
  isSatisfied : T → Bool

/-- The body of the `for` loop shared by both filters: `push_back` the item when
the test holds, otherwise leave `result` as it is. -/
def pushIf {T : Type} (test : T → Bool) (result : List T) (item : T) : List T :=
  if test item then result ++ [item] else result

namespace NaiveFilter

/-- The method `NaiveFilter::byColor_naive`: start from an empty `result` and scan
`itemsToFilter` front to back, appending each item whose colour is `color`. -/
def byColor_naive (itemsToFilter : List Product) (color : Color) : List Product :=
  itemsToFilter.foldl (pushIf (fun item => decide (item.color = color))) []

end NaiveFilter

namespace BetterFilter

/-- The method `BetterFilter::filter`: start from an empty `result` and scan `items`
front to back, appending each item for which `spec.isSatisfied` answers true. -/
def filter (items : List Product) (spec : Specification Product) : List Product :=
  items.foldl (pushIf spec.isSatisfied) []

end BetterFilter

/-- The class `ColorSpecification`: holds the colour `m_color` it was built with. -/
structure ColorSpecification where
  m_color : Color

/-- The override `ColorSpecification::isSatisfied`: `item->color == m_color`. -/
def ColorSpecification.isSatisfied (self : ColorSpecification) (item : Product) : Bool :=
  decide (item.color = self.m_color)

/-- A `ColorSpecification` used through the `Specification<Product>` interface. -/
def ColorSpecification.toSpecification (self : ColorSpecification) : Specification Product :=
  ⟨self.isSatisfied⟩

/-- The class `SizeSpecification`: holds the size `m_size` it was built with. -/
structure SizeSpecification where
  m_size : Size

/-- The override `SizeSpecification::isSatisfied`: `item->size == m_size`. -/
def SizeSpecification.isSatisfied (self : SizeSpecification) (item : Product) : Bool :=
  decide (item.size = self.m_size)

/-- A `SizeSpecification` used through the `Specification<Product>` interface. -/
def SizeSpecification.toSpecification (self : SizeSpecification) : Specification Product :=
  ⟨self.isSatisfied⟩

/-- The class template `AndSpecification<T>`: holds the two specifications
`m_first` and `m_second` it was built from. -/
structure AndSpecification (T : Type) where
  m_first : Specification T
  m_second : Specification T

/-- The override `AndSpecification::isSatisfied`:
`m_first.isSatisfied(item) && m_second.isSatisfied(item)`. -/
def AndSpecification.isSatisfied {T : Type} (self : AndSpecification T) (item : T) : Bool :=
  self.m_first.isSatisfied item && self.m_second.isSatisfied item

/-- An `AndSpecification` used through the `Specification<T>` interface. -/
def AndSpecification.toSpecification {T : Type} (self : AndSpecification T) :
    Specification T :=
  ⟨self.isSatisfied⟩

/-- The local `apple` of `OpenClosed::run`. -/
def apple : Product := ⟨"Apple", Color.GREEN, Size.SMALL⟩

/-- The local `tree` of `OpenClosed::run`. -/
def tree : Product := ⟨"Tree", Color.GREEN, Size.LARGE⟩

/-- The local `house` of `OpenClosed::run`. -/
def house : Product := ⟨"House", Color.BLUE, Size.LARGE⟩

/-- The vector `items` of `OpenClosed::run`. -/
def items : List Product := [apple, tree, house]

/-- The local `greenSpec` of `OpenClosed::run`. -/
def greenSpec : ColorSpecification := ⟨Color.GREEN⟩

/-- The local `largeSpec` of `OpenClosed::run`. -/
def largeSpec : SizeSpecification := ⟨Size.LARGE⟩

/-- The local `greenAndLargeSpec` of `OpenClosed::run`. -/
def greenAndLargeSpec : AndSpecification Product :=
  ⟨greenSpec.toSpecification, largeSpec.toSpecification⟩

/-- The lines `OpenClosed::run` prints for a filtered vector: each item's name
followed by the given suffix. -/
def printNames (things : List Product) (suffix : String) : List String :=
  things.map (fun item => item.name ++ suffix)

/-- The console output of `OpenClosed::run`, one entry per printed line. -/
def OpenClosed.run : List String :=
  ["2. OPEN-CLOSED"]
    ++ printNames (BetterFilter.filter items greenSpec.toSpecification) " is green"
    ++ printNames (BetterFilter.filter items largeSpec.toSpecification) " is large"
    ++ printNames (BetterFilter.filter items greenAndLargeSpec.toSpecification)
        " is large and green"
    ++ [""]

/-! ### Specifications with side effects

`isSatisfied` is a non-`const` virtual method, so an implementation may read and
change program state. The definitions below embed the same interface and the same
`AndSpecification::isSatisfied` body with the program state `σ` passed explicitly,
which makes the calls that are made observable. -/

/-- The interface `Specification<T>` for implementations whose `isSatisfied` acts on
a program state `σ`: a call returns its answer and the state it leaves. -/
structure StatefulSpecification (σ T : Type) where
  isSatisfied : T → σ → Bool × σ

/-- The class template `AndSpecification<T>` over implementations that act on a
program state. -/
structure StatefulAndSpecification (σ T : Type) where
  m_first : StatefulSpecification σ T
  m_second : StatefulSpecification σ T

/-- The override `AndSpecification::isSatisfied`:
`m_first.isSatisfied(item) && m_second.isSatisfied(item)`. The built-in `&&`
evaluates its left operand first and evaluates its right operand only when the
left one is true. -/
def StatefulAndSpecification.isSatisfied {σ T : Type} (self : StatefulAndSpecification σ T)
    (item : T) (st : σ) : Bool × σ :=
  match self.m_first.isSatisfied item st with
  | (true, st1) => self.m_second.isSatisfied item st1
  | (false, st1) => (false, st1)

/-- A `StatefulAndSpecification` used through the interface. -/
def StatefulAndSpecification.toSpecification {σ T : Type}
    (self : StatefulAndSpecification σ T) : StatefulSpecification σ T :=
  ⟨self.isSatisfied⟩

/-- A probe implementation of the interface whose state is the log of calls made
so far: each call of `isSatisfied` appends `tag` to the log and answers
`answer item`. -/
def recording {T : Type} (tag : String) (answer : T → Bool) :
    StatefulSpecification (List String) T :=
  ⟨fun item log => (answer item, log ++ [tag])⟩

/-! ### Items that may be null

The filters take a `std::vector<Product*>`, and a `Product*` may be null. The
definitions below embed the same methods over pointers that may be null: an item
is `none` for `nullptr` and `some p` for a pointer to the record `p`, and a call
that dereferences `nullptr` does not return, which is the result `none`. -/

namespace Ptr

/-- The interface `Specification<Product>` over pointers that may be null: a call
of `isSatisfied` returns `some` answer, or `none` when it does not return. -/
structure Specification where
  isSatisfied : Option Product → Option Bool

end Ptr

/-- The override `ColorSpecification::isSatisfied`: `item->color == m_color`, which
dereferences `item`. -/
def Ptr.ColorSpecification.isSatisfied (self : ColorSpecification) :
    Option Product → Option Bool
  | none => none
  | some item => some (decide (item.color = self.m_color))

/-- A `ColorSpecification` used through the interface. -/
def Ptr.ColorSpecification.toSpecification (self : ColorSpecification) : Ptr.Specification :=
  ⟨Ptr.ColorSpecification.isSatisfied self⟩

/-- The override `SizeSpecification::isSatisfied`: `item->size == m_size`, which
dereferences `item`. -/
def Ptr.SizeSpecification.isSatisfied (self : SizeSpecification) :
    Option Product → Option Bool
  | none => none
  | some item => some (decide (item.size = self.m_size))

/-- A `SizeSpecification` used through the interface. -/
def Ptr.SizeSpecification.toSpecification (self : SizeSpecification) : Ptr.Specification :=
  ⟨Ptr.SizeSpecification.isSatisfied self⟩

/-- The class template `AndSpecification<Product>` over pointers that may be null. -/
structure Ptr.AndSpecification where
  m_first : Ptr.Specification
  m_second : Ptr.Specification

/-- The override `AndSpecification::isSatisfied`:
`m_first.isSatisfied(item) && m_second.isSatisfied(item)`; the item is passed on,
not dereferenced, and the second call is made only after the first answered
true. -/
def Ptr.AndSpecification.isSatisfied (self : Ptr.AndSpecification) (item : Option Product) :
    Option Bool :=
  match self.m_first.isSatisfied item with
  | none => none
  | some true => self.m_second.isSatisfied item
  | some false => some false

/-- An `AndSpecification` used through the interface. -/
def Ptr.AndSpecification.toSpecification (self : Ptr.AndSpecification) : Ptr.Specification :=
  ⟨self.isSatisfied⟩

/-- One round of the loop of `BetterFilter::filter`: call `spec.isSatisfied(item)`
and, when it returns, `push_back` the item if the answer is true. -/
def Ptr.BetterFilter.step (spec : Ptr.Specification) (result : List (Option Product))
    (item : Option Product) : Option (List (Option Product)) :=
  match spec.isSatisfied item with
  | none => none
  | some true => some (result ++ [item])
  | some false => some result

/-- The method `BetterFilter::filter` over pointers that may be null: start from an
empty `result` and run the loop rounds front to back; the items themselves are
passed on to `spec.isSatisfied` and never dereferenced here. The result is `none`
when a call of `isSatisfied` does not return. -/
def Ptr.BetterFilter.filter (items : List (Option Product)) (spec : Ptr.Specification) :
    Option (List (Option Product)) :=
  items.foldlM (Ptr.BetterFilter.step spec) []

/-- An implementation of the interface over pointers that dereferences its item
and then answers as the side-effect free specification `spec` does on the
record. -/
def Specification.deref (spec : Specification Product) : Ptr.Specification :=
  ⟨fun item => item.map spec.isSatisfied⟩

/-- The reference list filter named by the specification text: the records of
`records` for which the predicate is true, in order. -/
def referenceFilter (records : List Product) (predicate : Product → Bool) : List Product :=
  match records with
  | [] => []
  | r :: rest =>
    if predicate r then r :: referenceFilter rest predicate else referenceFilter rest predicate

/-! ## LiskovSubstitution.cpp -/

/-- The least value of a C++ `int`. -/
def INT_MIN : Int := -2147483648

/-- The greatest value of a C++ `int`. -/
def INT_MAX : Int := 2147483647

/-- A mathematical integer that fits a C++ `int`. -/
def InIntRange (x : Int) : Prop := INT_MIN ≤ x ∧ x ≤ INT_MAX

instance (x : Int) : Decidable (InIntRange x) := by
  unfold InIntRange; exact inferInstance

/-- The `int` that a 32-bit two's complement machine stores for the exact result `x`. -/
def wrapInt (x : Int) : Int := (x + 2147483648) % 4294967296 - 2147483648

/-- The class `Rectangle` with its data members `m_width` and `m_height`. -/
structure Rectangle where
  m_width : Int
  m_height : Int
  deriving DecidableEq

namespace Rectangle

/-- The constructor `Rectangle(int width, int height)`. -/
def new (width height : Int) : Rectangle := ⟨width, height⟩

/-- The method `getWidth`. -/
def getWidth (self : Rectangle) : Int := self.m_width

/-- The method `Rectangle::setWidth`: `m_width = width`. -/
def setWidth (self : Rectangle) (width : Int) : Rectangle :=
  { self with m_width := width }

/-- The method `getHeight`. -/
def getHeight (self : Rectangle) : Int := self.m_height

/-- The method `Rectangle::setHeight`: `m_height = height`. -/
def setHeight (self : Rectangle) (height : Int) : Rectangle :=
  { self with m_height := height }

/-- The method `area`: the `int` product `m_width * m_height`. -/
def area (self : Rectangle) : Int := wrapInt (self.m_width * self.m_height)

end Rectangle

/-- The class `Square : public Rectangle`: a `Rectangle` sub-object and no further
data members. -/
structure Square where
  toRectangle : Rectangle
  deriving DecidableEq

namespace Square

/-- The constructor `Square(int size) : Rectangle(size, size)`. -/
def new (size : Int) : Square := ⟨Rectangle.new size size⟩

/-- The override `Square::setWidth`: `m_width = m_height = width`. -/
def setWidth (self : Square) (width : Int) : Square :=
  let r := { self.toRectangle with m_height := width }
  ⟨{ r with m_width := r.m_height }⟩

/-- The override `Square::setHeight`: `m_width = m_height = height`. -/
def setHeight (self : Square) (height : Int) : Square :=
  let r := { self.toRectangle with m_height := height }
  ⟨{ r with m_width := r.m_height }⟩

end Square

/-- A call that a client holding a `Square` can make to change it; the data
members are `protected`, so after construction these are the only ways. -/
inductive SquareCall where
  | setWidth (v : Int)
  | setHeight (v : Int)
  deriving DecidableEq

/-- The `Square` after one call. -/
def Square.call (self : Square) : SquareCall → Square
  | SquareCall.setWidth v => self.setWidth v
  | SquareCall.setHeight v => self.setHeight v

/-- The `Square` after a sequence of calls, made in order. -/
def Square.calls (self : Square) (cs : List SquareCall) : Square :=
  cs.foldl Square.call self

/-- The object behind a `Rectangle&`: its dynamic type is `Rectangle` or `Square`. -/
inductive RectangleRef where
  | rectangle (r : Rectangle)
  | square (s : Square)
  deriving DecidableEq

namespace RectangleRef

/-- The `Rectangle` sub-object that the non-virtual members read. -/
def base : RectangleRef → Rectangle
  | rectangle r => r
  | square s => s.toRectangle

/-- A call of the non-virtual `getWidth` through the reference. -/
def getWidth (self : RectangleRef) : Int := self.base.getWidth

/-- A call of the non-virtual `getHeight` through the reference. -/
def getHeight (self : RectangleRef) : Int := self.base.getHeight

/-- A call of the virtual `setWidth` through the reference. -/
def setWidth : RectangleRef → Int → RectangleRef
  | rectangle r, width => rectangle (r.setWidth width)
  | square s, width => square (s.setWidth width)

/-- A call of the virtual `setHeight` through the reference. -/
def setHeight : RectangleRef → Int → RectangleRef
  | rectangle r, height => rectangle (r.setHeight height)
  | square s, height => square (s.setHeight height)

/-- A call of the non-virtual `area` through the reference. -/
def area (self : RectangleRef) : Int := self.base.area

end RectangleRef

/-- The two numbers that `process` sends to the console. -/
structure ProcessOutput where
  expected : Int
  got : Int
  deriving DecidableEq

/-- The line `process` prints:
`"expected area = " << (w * 10) << ", got " << r.area()`. -/
def ProcessOutput.line (o : ProcessOutput) : String :=
  "expected area = " ++ toString o.expected ++ ", got " ++ toString o.got

/-- The function `process(Rectangle& r)`: read the width, set the height to 10,
print `w * 10` and `r.area()`. Returns the object as `process` leaves it and
what was printed. -/
def process (r : RectangleRef) : RectangleRef × ProcessOutput :=
  let w := r.getWidth
  let r := r.setHeight 10
  (r, ⟨wrapInt (w * 10), r.area⟩)

namespace RectangleFactory

/-- The static method `create_rectangle`: `return Rectangle(w, h)`. -/
def create_rectangle (w h : Int) : Rectangle := Rectangle.new w h

/-- The static method `create_square`: `return Rectangle(size, size)`. -/
def create_square (size : Int) : Rectangle := Rectangle.new size size

end RectangleFactory

/-- The console output of `LiskovSubstitution::run`, one entry per printed line. -/
def LiskovSubstitution.run : List String :=
  let rectangle := Rectangle.new 3 4
  let sq := Square.new 5
  let square := RectangleFactory.create_square 5
  [ "3. LISKOV SUBSTITUTION",
    (process (RectangleRef.rectangle rectangle)).2.line,
    (process (RectangleRef.square sq)).2.line,
    (process (RectangleRef.rectangle square)).2.line,
    "" ]

/-! ## The scan loop -/

/-- Running the loop body over `items` from an accumulated `result` appends to it
the items that pass the test, in order. -/
theorem foldl_pushIf {T : Type} (test : T → Bool) (items result : List T) :
    items.foldl (pushIf test) result = result ++ items.filter test := by
  induction items generalizing result with
  | nil => simp
  | cons item rest ih =>
    rw [List.foldl_cons, ih]
    by_cases h : test item = true
    · simp [pushIf, List.filter_cons, h]
    · simp [pushIf, List.filter_cons, h]

/-- The loop of `BetterFilter::filter` computes the library filter. -/
theorem filter_eq_listFilter (items : List Product) (spec : Specification Product) :
    BetterFilter.filter items spec = items.filter spec.isSatisfied := by
  simp [BetterFilter.filter, foldl_pushIf]

/-- The reference filter is the library filter. -/
theorem referenceFilter_eq_listFilter (records : List Product) (predicate : Product → Bool) :
    referenceFilter records predicate = records.filter predicate := by
  induction records with
  | nil => rfl
  | cons r rest ih =>
    by_cases h : predicate r = true
    · simp [referenceFilter, List.filter_cons, h, ih]
    · simp [referenceFilter, List.filter_cons, h, ih]

/-- The 32-bit reduction leaves a value that fits an `int` as it is. -/
theorem wrapInt_of_inRange (x : Int) (h : InIntRange x) : wrapInt x = x := by
  obtain ⟨hlo, hhi⟩ := h
  unfold INT_MIN at hlo
  unfold INT_MAX at hhi
  unfold wrapInt
  rw [Int.emod_eq_of_lt (by omega) (by omega)]
  omega

/-- The two setters of `Square` leave width and height equal, whatever the
`Square` was before. -/
theorem Square.call_width_eq_height (sq : Square) (c : SquareCall) :
    (sq.call c).toRectangle.m_width = (sq.call c).toRectangle.m_height := by
  cases c <;> rfl

/-- Equality of width and height survives every sequence of calls. -/
theorem Square.calls_width_eq_height (sq : Square) (cs : List SquareCall)
    (h : sq.toRectangle.m_width = sq.toRectangle.m_height) :
    (sq.calls cs).toRectangle.m_width = (sq.calls cs).toRectangle.m_height := by
  induction cs generalizing sq with
  | nil => exact h
  | cons c rest ih =>
    exact ih (sq.call c) (Square.call_width_eq_height sq c)

/-- When every call of `isSatisfied` on an item of `items` returns, the loop over
pointers returns, with the items answered true appended to `result` in order. -/
theorem Ptr.foldlM_step_of_returns (spec : Ptr.Specification)
    (items result : List (Option Product))
    (h : ∀ item ∈ items, (spec.isSatisfied item).isSome = true) :
    items.foldlM (Ptr.BetterFilter.step spec) result
      = some (result ++ items.filter (fun item => spec.isSatisfied item == some true)) := by
  induction items generalizing result with
  | nil => simp
  | cons item rest ih =>
    have hrest : ∀ x ∈ rest, (spec.isSatisfied x).isSome = true :=
      fun x hx => h x (List.mem_cons_of_mem _ hx)
    have hitem := h item (List.mem_cons_self _ _)
    rw [List.foldlM_cons]
    rcases hb : spec.isSatisfied item with _ | b
    · rw [hb] at hitem
      simp at hitem
    · cases b
      · simp [Ptr.BetterFilter.step, hb, ih _ hrest, List.filter_cons]
      · simp [Ptr.BetterFilter.step, hb, ih _ hrest, List.filter_cons]

/-- When the loop over pointers returns, every call of `isSatisfied` on an item of
`items` returned. -/
theorem Ptr.returns_of_foldlM_step (spec : Ptr.Specification)
    (items result : List (Option Product))
    (h : (items.foldlM (Ptr.BetterFilter.step spec) result).isSome = true) :
    ∀ item ∈ items, (spec.isSatisfied item).isSome = true := by
  induction items generalizing result with
  | nil => simp
  | cons x rest ih =>
    rw [List.foldlM_cons] at h
    rcases hb : spec.isSatisfied x with _ | b
    · simp [Ptr.BetterFilter.step, hb] at h
    · intro item hmem
      rcases List.mem_cons.mp hmem with rfl | hin
      · simp [hb]
      · cases b
        · simp only [Ptr.BetterFilter.step, hb, Option.some_bind] at h
          exact ih _ h item hin
        · simp only [Ptr.BetterFilter.step, hb, Option.some_bind] at h
          exact ih _ h item hin

/-! ## Claims -/

/-- C1: `BetterFilter.filter items spec` is the reference filter of `items` by
`spec.isSatisfied` (same items, same order, same multiplicity): every returned
item satisfies `spec`, every item of `items` that satisfies `spec` is returned,
and a satisfying item occurs as often in the result as in `items`. -/
theorem C1_filter_is_reference_filter (items : List Product) (spec : Specification Product) :
    BetterFilter.filter items spec = referenceFilter items spec.isSatisfied
    ∧ BetterFilter.filter items spec = items.filter spec.isSatisfied
    ∧ (∀ item ∈ BetterFilter.filter items spec, spec.isSatisfied item = true)
    ∧ (∀ item ∈ items, spec.isSatisfied item = true → item ∈ BetterFilter.filter items spec)
    ∧ (∀ item, spec.isSatisfied item = true →
        (BetterFilter.filter items spec).count item = items.count item) := by
  refine ⟨?_, filter_eq_listFilter items spec, ?_, ?_, ?_⟩
  · rw [filter_eq_listFilter, referenceFilter_eq_listFilter]
  · intro item hmem
    rw [filter_eq_listFilter] at hmem
    exact (List.mem_filter.mp hmem).2
  · intro item hmem hsat
    rw [filter_eq_listFilter]
    exact List.mem_filter.mpr ⟨hmem, hsat⟩
  · intro item hsat
    rw [filter_eq_listFilter]
    exact List.count_filter hsat

/-- C2: `BetterFilter.filter S P` is a sublist of `S` (order preserved), is never
longer than `S`, and contains only items of `S`. -/
theorem C2_filter_sublist (S : List Product) (P : Specification Product) :
    List.Sublist (BetterFilter.filter S P) S
    ∧ (BetterFilter.filter S P).length ≤ S.length
    ∧ (∀ item ∈ BetterFilter.filter S P, item ∈ S) := by
  have hsub : List.Sublist (BetterFilter.filter S P) S := by
    rw [filter_eq_listFilter]
    exact List.filter_sublist S
  exact ⟨hsub, hsub.length_le, fun item hmem => hsub.subset hmem⟩

/-- C3: filtering by `AndSpecification(P, Q)` equals filtering by `P` and then
filtering the result by `Q`. -/
theorem C3_filter_and_eq_filter_filter (S : List Product) (P Q : Specification Product) :
    BetterFilter.filter S (AndSpecification.mk P Q).toSpecification
      = BetterFilter.filter (BetterFilter.filter S P) Q := by
  simp only [filter_eq_listFilter, List.filter_filter]
  apply List.filter_congr
  intro item _
  simp only [AndSpecification.toSpecification, AndSpecification.isSatisfied]
  exact Bool.and_comm _ _

/-- C4: `AndSpecification(first, second).isSatisfied(item)` is true exactly when
`first.isSatisfied(item)` and `second.isSatisfied(item)` are both true, called
directly or through the `Specification` interface. -/
theorem C4_and_isSatisfied_iff {T : Type} (first second : Specification T) (item : T) :
    ((AndSpecification.mk first second).isSatisfied item = true
      ↔ first.isSatisfied item = true ∧ second.isSatisfied item = true)
    ∧ ((AndSpecification.mk first second).toSpecification.isSatisfied item = true
      ↔ first.isSatisfied item = true ∧ second.isSatisfied item = true) := by
  simp [AndSpecification.toSpecification, AndSpecification.isSatisfied]

/-- C5: `ColorSpecification(c).isSatisfied(p)` is true exactly when `p.color = c`,
whatever `p.name` and `p.size` are, and `SizeSpecification(s).isSatisfied(p)` is
true exactly when `p.size = s`, whatever `p.name` and `p.color` are. -/
theorem C5_attribute_specifications (p : Product) (c : Color) (s : Size) :
    ((ColorSpecification.mk c).isSatisfied p = true ↔ p.color = c)
    ∧ (∀ (name : String) (size : Size),
        (ColorSpecification.mk c).isSatisfied ⟨name, p.color, size⟩
          = (ColorSpecification.mk c).isSatisfied p)
    ∧ ((SizeSpecification.mk s).isSatisfied p = true ↔ p.size = s)
    ∧ (∀ (name : String) (color : Color),
        (SizeSpecification.mk s).isSatisfied ⟨name, color, p.size⟩
          = (SizeSpecification.mk s).isSatisfied p) := by
  simp [ColorSpecification.isSatisfied, SizeSpecification.isSatisfied]

/-- C6 as stated fails: the vector `[&apple, nullptr]` is an input on which
`filter` does not return with `ColorSpecification(GREEN)` nor with
`SizeSpecification(LARGE)`, because `isSatisfied` dereferences the null item. -/
theorem C6_counterexample :
    Ptr.BetterFilter.filter [some apple, none] (Ptr.ColorSpecification.toSpecification greenSpec)
      = none
    ∧ Ptr.BetterFilter.filter [some apple, none]
        (Ptr.SizeSpecification.toSpecification largeSpec)
      = none := by
  decide

/-- C6 amended: with a specification that answers false on every item the filter
returns the empty list, with one that answers true on every item it returns `S`
itself, and the filter of the empty list is empty for every specification, for
vectors of records and for vectors of pointers that may be null alike. `filter`
returns exactly when every call of `spec.isSatisfied` on an item of `S` returns,
and then returns the items answered true; so with a specification that
dereferences its item, as `ColorSpecification`, `SizeSpecification` and an
`AndSpecification` of such do, it returns on every vector without a null item,
with the result of the filter on the records. -/
theorem C6_filter_returns_iff_spec_returns (S : List (Option Product))
    (P : Ptr.Specification) :
    ((Ptr.BetterFilter.filter S P).isSome = true
      ↔ ∀ item ∈ S, (P.isSatisfied item).isSome = true)
    ∧ (∀ result, Ptr.BetterFilter.filter S P = some result →
        result = S.filter (fun item => P.isSatisfied item == some true))
    ∧ ((∀ item, P.isSatisfied item = some false) → Ptr.BetterFilter.filter S P = some [])
    ∧ ((∀ item, P.isSatisfied item = some true) → Ptr.BetterFilter.filter S P = some S)
    ∧ Ptr.BetterFilter.filter [] P = some []
    ∧ (∀ (R : List Product) (Q : Specification Product),
        Ptr.BetterFilter.filter (R.map some) Q.deref
          = some ((BetterFilter.filter R Q).map some))
    ∧ (∀ c : ColorSpecification,
        Ptr.ColorSpecification.toSpecification c = c.toSpecification.deref)
    ∧ (∀ z : SizeSpecification,
        Ptr.SizeSpecification.toSpecification z = z.toSpecification.deref)
    ∧ (∀ Q1 Q2 : Specification Product,
        (Ptr.AndSpecification.mk Q1.deref Q2.deref).toSpecification
          = (AndSpecification.mk Q1 Q2).toSpecification.deref)
    ∧ (∀ (R : List Product) (Q : Specification Product),
        (∀ item, Q.isSatisfied item = false) → BetterFilter.filter R Q = [])
    ∧ (∀ (R : List Product) (Q : Specification Product),
        (∀ item, Q.isSatisfied item = true) → BetterFilter.filter R Q = R)
    ∧ (∀ Q : Specification Product, BetterFilter.filter [] Q = [])
    ∧ (∀ R : List Product, BetterFilter.filter R ⟨fun _ => false⟩ = [])
    ∧ (∀ R : List Product, BetterFilter.filter R ⟨fun _ => true⟩ = R) := by
  have hiff : (Ptr.BetterFilter.filter S P).isSome = true
      ↔ ∀ item ∈ S, (P.isSatisfied item).isSome = true := by
    constructor
    · intro h
      exact Ptr.returns_of_foldlM_step P S [] h
    · intro h
      simp [Ptr.BetterFilter.filter, Ptr.foldlM_step_of_returns P S [] h]
  refine ⟨hiff, ?_, ?_, ?_, rfl, ?_, ?_, ?_, ?_, ?_, ?_, ?_, ?_, ?_⟩
  · intro result hres
    have hall := hiff.mp (by simp [hres])
    have heq := Ptr.foldlM_step_of_returns P S [] hall
    rw [Ptr.BetterFilter.filter, heq] at hres
    simpa using hres.symm
  · intro hfalse
    rw [Ptr.BetterFilter.filter,
      Ptr.foldlM_step_of_returns P S [] (fun item _ => by simp [hfalse item])]
    simp [hfalse]
  · intro htrue
    rw [Ptr.BetterFilter.filter,
      Ptr.foldlM_step_of_returns P S [] (fun item _ => by simp [htrue item])]
    simp [htrue]
  · intro R Q
    rw [Ptr.BetterFilter.filter,
      Ptr.foldlM_step_of_returns Q.deref (R.map some) []
        (fun item hmem => by
          obtain ⟨r, _, rfl⟩ := List.mem_map.mp hmem
          simp [Specification.deref])]
    rw [filter_eq_listFilter, List.filter_map, List.nil_append]
    congr 2
    apply List.filter_congr
    intro r _
    simp [Specification.deref]
  · intro c
    simp only [Ptr.ColorSpecification.toSpecification, Specification.deref,
      Ptr.Specification.mk.injEq]
    funext item
    cases item <;> rfl
  · intro z
    simp only [Ptr.SizeSpecification.toSpecification, Specification.deref,
      Ptr.Specification.mk.injEq]
    funext item
    cases item <;> rfl
  · intro Q1 Q2
    simp only [Ptr.AndSpecification.toSpecification, Specification.deref,
      Ptr.Specification.mk.injEq]
    funext item
    cases item with
    | none => rfl
    | some r =>
      cases h1 : Q1.isSatisfied r <;>
        simp [Ptr.AndSpecification.isSatisfied, AndSpecification.toSpecification,
          AndSpecification.isSatisfied, h1]
  · intro R Q hfalse
    rw [filter_eq_listFilter, List.filter_eq_nil_iff]
    intro item _
    simp [hfalse item]
  · intro R Q htrue
    rw [filter_eq_listFilter, List.filter_eq_self]
    intro item _
    exact htrue item
  · intro Q
    rfl
  · intro R
    simp [filter_eq_listFilter]
  · intro R
    simp [filter_eq_listFilter]

/-- C7: filtering the filtered list again by the same specification changes
nothing. -/
theorem C7_filter_idempotent (S : List Product) (P : Specification Product) :
    BetterFilter.filter (BetterFilter.filter S P) P = BetterFilter.filter S P := by
  simp only [filter_eq_listFilter, List.filter_filter, Bool.and_self]

/-- C8: on the demo list `[apple, tree, house]` the green filter returns
`[apple, tree]`, the large filter returns `[tree, house]`, and the conjunction of
the two returns `[tree]`; the same holds for the three specification objects of
`OpenClosed::run`, whose printed lines are listed. -/
theorem C8_demo_scenario :
    items = [⟨"Apple", Color.GREEN, Size.SMALL⟩, ⟨"Tree", Color.GREEN, Size.LARGE⟩,
        ⟨"House", Color.BLUE, Size.LARGE⟩]
    ∧ BetterFilter.filter items (ColorSpecification.mk Color.GREEN).toSpecification
        = [apple, tree]
    ∧ BetterFilter.filter items (SizeSpecification.mk Size.LARGE).toSpecification
        = [tree, house]
    ∧ BetterFilter.filter items
        (AndSpecification.mk (ColorSpecification.mk Color.GREEN).toSpecification
          (SizeSpecification.mk Size.LARGE).toSpecification).toSpecification
        = [tree]
    ∧ (BetterFilter.filter items greenSpec.toSpecification).map Product.name
        = ["Apple", "Tree"]
    ∧ (BetterFilter.filter items largeSpec.toSpecification).map Product.name
        = ["Tree", "House"]
    ∧ (BetterFilter.filter items greenAndLargeSpec.toSpecification).map Product.name
        = ["Tree"]
    ∧ OpenClosed.run = ["2. OPEN-CLOSED", "Apple is green", "Tree is green",
        "Tree is large", "House is large", "Tree is large and green", ""] := by
  decide

/-- C9: for a plain `Rectangle` of width `w` and height `h` such that `w * 10` fits
an `int`, `process` prints expected area `w * 10` and actual area `w * 10` and
leaves the rectangle with width `w` and height 10; on a plain `Rectangle`,
`setHeight` keeps the width and `setWidth` keeps the height; `Rectangle{3,4}`
prints expected 30, got 30. -/
theorem C9_process_rectangle (w h : Int) (hfit : InIntRange (w * 10)) :
    (process (RectangleRef.rectangle (Rectangle.new w h))).2.expected = w * 10
    ∧ (process (RectangleRef.rectangle (Rectangle.new w h))).2.got = w * 10
    ∧ (process (RectangleRef.rectangle (Rectangle.new w h))).1
        = RectangleRef.rectangle (Rectangle.new w 10)
    ∧ (∀ (r : Rectangle) (v : Int),
        (r.setHeight v).getWidth = r.getWidth ∧ (r.setHeight v).getHeight = v
        ∧ (r.setWidth v).getHeight = r.getHeight ∧ (r.setWidth v).getWidth = v)
    ∧ (∀ (r : Rectangle) (v : Int),
        ((RectangleRef.rectangle r).setHeight v).getWidth = r.getWidth
        ∧ ((RectangleRef.rectangle r).setWidth v).getHeight = r.getHeight)
    ∧ (process (RectangleRef.rectangle (Rectangle.new 3 4))).2 = ⟨30, 30⟩
    ∧ (process (RectangleRef.rectangle (Rectangle.new 3 4))).2.line
        = "expected area = 30, got 30" := by
  have hw : wrapInt (w * 10) = w * 10 := wrapInt_of_inRange _ hfit
  refine ⟨?_, ?_, ?_, ?_, ?_, by decide, by decide⟩
  · simpa [process, RectangleRef.getWidth, RectangleRef.base, Rectangle.getWidth,
      Rectangle.new] using hw
  · simpa [process, RectangleRef.setHeight, RectangleRef.area, RectangleRef.base,
      Rectangle.setHeight, Rectangle.area, Rectangle.new] using hw
  · simp [process, RectangleRef.setHeight, Rectangle.setHeight, Rectangle.new]
  · intro r v
    simp [Rectangle.setHeight, Rectangle.setWidth, Rectangle.getWidth, Rectangle.getHeight]
  · intro r v
    simp [RectangleRef.setHeight, RectangleRef.setWidth, RectangleRef.getWidth,
      RectangleRef.getHeight, RectangleRef.base, Rectangle.setHeight, Rectangle.setWidth,
      Rectangle.getWidth, Rectangle.getHeight]

/-- Witness of C9 at `Rectangle{3,4}`: 30 fits an `int`, and `process` prints
expected 30, got 30. -/
theorem C9_process_rectangle_witness :
    InIntRange ((3 : Int) * 10)
    ∧ (process (RectangleRef.rectangle (Rectangle.new 3 4))).2.expected = 3 * 10
    ∧ (process (RectangleRef.rectangle (Rectangle.new 3 4))).2.got = 3 * 10 :=
  ⟨by decide, (C9_process_rectangle 3 4 (by decide)).1,
    (C9_process_rectangle 3 4 (by decide)).2.1⟩

/-- C10 as stated fails: the size `-2147483638` is an `int` other than 10, yet for
`Square{-2147483638}` the product `w * 10` leaves the `int` range and `process`
prints expected 100, got 100, so the expected area is not `s * 10` and the two
printed areas agree although the size is not 10. -/
theorem C10_counterexample :
    InIntRange (-2147483638)
    ∧ (process (RectangleRef.square (Square.new (-2147483638)))).2 = ⟨100, 100⟩
    ∧ (process (RectangleRef.square (Square.new (-2147483638)))).2.expected
        ≠ (-2147483638) * 10
    ∧ ¬ ((process (RectangleRef.square (Square.new (-2147483638)))).2.expected
          = (process (RectangleRef.square (Square.new (-2147483638)))).2.got
        ↔ (-2147483638 : Int) = 10) := by
  decide

/-- C10 amended: for a `Square` built with a size `s` such that `s * 10` fits an
`int`, `process` prints expected area `s * 10` and actual area 100, and the two
agree exactly when `s = 10`; the actual area is 100 for every size, and the
square is left with width and height 10; `Square{5}` prints expected 50, got
100. -/
theorem C10_process_square (s : Int) (hfit : InIntRange (s * 10)) :
    (process (RectangleRef.square (Square.new s))).2.got = 100
    ∧ (process (RectangleRef.square (Square.new s))).2.expected = s * 10
    ∧ ((process (RectangleRef.square (Square.new s))).2.expected
          = (process (RectangleRef.square (Square.new s))).2.got
        ↔ s = 10)
    ∧ (∀ t : Int, (process (RectangleRef.square (Square.new t))).2.got = 100
        ∧ (process (RectangleRef.square (Square.new t))).1
            = RectangleRef.square (Square.new 10))
    ∧ (process (RectangleRef.square (Square.new 5))).2 = ⟨50, 100⟩
    ∧ (process (RectangleRef.square (Square.new 5))).2.line
        = "expected area = 50, got 100" := by
  have hw : wrapInt (s * 10) = s * 10 := wrapInt_of_inRange _ hfit
  have hgot : ∀ t : Int, (process (RectangleRef.square (Square.new t))).2.got = 100 := by
    intro t
    simp only [process, RectangleRef.setHeight, RectangleRef.area, RectangleRef.base,
      Square.setHeight, Square.new, Rectangle.new, Rectangle.area]
    decide
  have hexp : (process (RectangleRef.square (Square.new s))).2.expected = s * 10 := by
    simpa [process, RectangleRef.getWidth, RectangleRef.base, Rectangle.getWidth,
      Square.new, Rectangle.new] using hw
  refine ⟨hgot s, hexp, ?_, ?_, by decide, by decide⟩
  · rw [hexp, hgot s]
    omega
  · intro t
    refine ⟨hgot t, ?_⟩
    simp [process, RectangleRef.setHeight, Square.setHeight, Square.new, Rectangle.new]

/-- Witness of the amended C10 at `Square{5}`: 50 fits an `int`, and `process`
prints expected 50, got 100. -/
theorem C10_process_square_witness :
    InIntRange ((5 : Int) * 10)
    ∧ (process (RectangleRef.square (Square.new 5))).2.got = 100
    ∧ (process (RectangleRef.square (Square.new 5))).2.expected = 5 * 10 :=
  ⟨by decide, (C10_process_square 5 (by decide)).1, (C10_process_square 5 (by decide)).2.1⟩

/-- C11 as stated fails: `create_square(300000000)` has width and height
300000000, and `process` on it prints expected -1294967296, got -1294967296,
because `w * 10` leaves the `int` range; the expected area is not `size * 10`. -/
theorem C11_counterexample :
    InIntRange 300000000
    ∧ (process (RectangleRef.rectangle (RectangleFactory.create_square 300000000))).2
        = ⟨-1294967296, -1294967296⟩
    ∧ (process (RectangleRef.rectangle (RectangleFactory.create_square 300000000))).2.expected
        ≠ 300000000 * 10 := by
  decide

/-- C11 amended: `create_square(t)` is a `Rectangle` of width and height `t` and
`create_rectangle(w, h)` one of width `w` and height `h`; the object made by
`create_square` is a plain `Rectangle`, so setting its width to `a` and its height
to `b`, in either order, leaves width `a` and height `b`; `process` on it prints
an actual area equal to the expected area for every size, and both are
`size * 10` when `size * 10` fits an `int`; `create_square(5)` prints expected
50, got 50. -/
theorem C11_factory_square (size : Int) (hfit : InIntRange (size * 10)) :
    (∀ t : Int, (RectangleFactory.create_square t).getWidth = t
        ∧ (RectangleFactory.create_square t).getHeight = t)
    ∧ (∀ w h : Int, (RectangleFactory.create_rectangle w h).getWidth = w
        ∧ (RectangleFactory.create_rectangle w h).getHeight = h)
    ∧ (∀ t a b : Int,
        (((RectangleRef.rectangle (RectangleFactory.create_square t)).setWidth a).setHeight b)
          = RectangleRef.rectangle (Rectangle.new a b)
        ∧ (((RectangleRef.rectangle (RectangleFactory.create_square t)).setHeight b).setWidth a)
          = RectangleRef.rectangle (Rectangle.new a b))
    ∧ (process (RectangleRef.rectangle (RectangleFactory.create_square size))).2.expected
        = size * 10
    ∧ (process (RectangleRef.rectangle (RectangleFactory.create_square size))).2.got
        = size * 10
    ∧ (∀ t : Int,
        (process (RectangleRef.rectangle (RectangleFactory.create_square t))).2.got
          = (process (RectangleRef.rectangle (RectangleFactory.create_square t))).2.expected)
    ∧ (process (RectangleRef.rectangle (RectangleFactory.create_square 5))).2 = ⟨50, 50⟩
    ∧ (process (RectangleRef.rectangle (RectangleFactory.create_square 5))).2.line
        = "expected area = 50, got 50" := by
  have hw : wrapInt (size * 10) = size * 10 := wrapInt_of_inRange _ hfit
  refine ⟨fun t => ⟨rfl, rfl⟩, fun w h => ⟨rfl, rfl⟩, fun t a b => ⟨rfl, rfl⟩, ?_, ?_,
    fun t => rfl, by decide, by decide⟩
  · simpa [process, RectangleRef.getWidth, RectangleRef.base, Rectangle.getWidth,
      RectangleFactory.create_square, Rectangle.new] using hw
  · simpa [process, RectangleRef.setHeight, RectangleRef.area, RectangleRef.base,
      Rectangle.setHeight, Rectangle.area, RectangleFactory.create_square, Rectangle.new]
      using hw

/-- Witness of the amended C11 at `create_square(5)`: 50 fits an `int`, and
`process` prints expected 50, got 50. -/
theorem C11_factory_square_witness :
    InIntRange ((5 : Int) * 10)
    ∧ (process (RectangleRef.rectangle (RectangleFactory.create_square 5))).2.expected = 5 * 10
    ∧ (process (RectangleRef.rectangle (RectangleFactory.create_square 5))).2.got = 5 * 10 :=
  ⟨by decide, (C11_factory_square 5 (by decide)).2.2.2.1,
    (C11_factory_square 5 (by decide)).2.2.2.2.1⟩

/-- C12: `NaiveFilter::byColor_naive(items, c)` returns the same list as
`BetterFilter::filter(items, ColorSpecification(c))`, namely the items of colour
`c` in their original order. -/
theorem C12_naive_eq_better (items : List Product) (c : Color) :
    NaiveFilter.byColor_naive items c
      = BetterFilter.filter items (ColorSpecification.mk c).toSpecification
    ∧ NaiveFilter.byColor_naive items c
      = items.filter (fun item => decide (item.color = c)) := by
  constructor
  · rfl
  · simp [NaiveFilter.byColor_naive, foldl_pushIf]

/-- C13 as stated fails: with a first specification that answers false and logs
the tag `first`, and a second one that logs the tag `second`, the conjunction
called on `apple` from an empty log answers false and leaves the log `[first]`:
the second specification was not invoked. -/
theorem C13_counterexample :
    (StatefulAndSpecification.mk (recording "first" (fun _ => false))
        (recording "second" (fun _ => true))).isSatisfied apple []
      = (false, ["first"])
    ∧ "second" ∉ ((StatefulAndSpecification.mk (recording "first" (fun _ => false))
        (recording "second" (fun _ => true))).isSatisfied apple []).2 := by
  decide

/-- C13 amended: `AndSpecification(first, second).isSatisfied(item)` always invokes
`first.isSatisfied(item)`, once and before anything else, and invokes
`second.isSatisfied(item)` afterwards exactly when the first call answered true;
when the first call answers false the result is false and the state is the one
the first call left. The answer is the one the conjunction of the two answers
gives. -/
theorem C13_and_invokes_second_only_after_true {T : Type} (p q : T → Bool) (item : T)
    (log : List String) :
    ((StatefulAndSpecification.mk (recording "first" p) (recording "second" q)).isSatisfied
        item log).2
      = log ++ (if p item then ["first", "second"] else ["first"])
    ∧ ((StatefulAndSpecification.mk (recording "first" p) (recording "second" q)).isSatisfied
        item log).1
      = (AndSpecification.mk ⟨p⟩ ⟨q⟩).isSatisfied item
    ∧ (∀ (σ : Type) (first second : StatefulSpecification σ T) (st : σ),
        (first.isSatisfied item st).1 = false →
          (StatefulAndSpecification.mk first second).isSatisfied item st
            = (false, (first.isSatisfied item st).2))
    ∧ (∀ (σ : Type) (first second : StatefulSpecification σ T) (st : σ),
        (first.isSatisfied item st).1 = true →
          (StatefulAndSpecification.mk first second).isSatisfied item st
            = second.isSatisfied item (first.isSatisfied item st).2) := by
  refine ⟨?_, ?_, ?_, ?_⟩
  · cases hp : p item <;>
      simp [StatefulAndSpecification.isSatisfied, recording, hp]
  · cases hp : p item <;>
      simp [StatefulAndSpecification.isSatisfied, AndSpecification.isSatisfied, recording, hp]
  · intro σ first second st h
    rcases hf : first.isSatisfied item st with ⟨b, st1⟩
    rw [hf] at h
    simp only at h
    subst h
    simp [StatefulAndSpecification.isSatisfied, hf]
  · intro σ first second st h
    rcases hf : first.isSatisfied item st with ⟨b, st1⟩
    rw [hf] at h
    simp only at h
    subst h
    simp [StatefulAndSpecification.isSatisfied, hf]

/-- C15 as stated fails: `Square{65536}` has width and height 65536, but the `int`
product `m_width * m_height` leaves the `int` range and `area()` returns 0, which
is not the square of the side. -/
theorem C15_counterexample :
    InIntRange 65536
    ∧ (Square.new 65536).toRectangle.getWidth = 65536
    ∧ (Square.new 65536).toRectangle.getHeight = 65536
    ∧ (RectangleRef.square (Square.new 65536)).area = 0
    ∧ (RectangleRef.square (Square.new 65536)).area ≠ 65536 * 65536 := by
  decide

/-- C15 amended: width equals height after `Square(t)` for every `t` (both are
`t`); `setWidth(v)` and `setHeight(v)` on a `Square` each set both width and
height to `v`, also when called through a `Rectangle&`; so width equals height
after every sequence of calls on a constructed `Square`; and when the square of
the current side fits an `int`, `area()` returns the square of the current
side. -/
theorem C15_square_invariant (size : Int) (cs : List SquareCall)
    (hfit : InIntRange (((Square.new size).calls cs).toRectangle.getWidth
      * ((Square.new size).calls cs).toRectangle.getWidth)) :
    (∀ t : Int, (Square.new t).toRectangle.getWidth = t
        ∧ (Square.new t).toRectangle.getHeight = t)
    ∧ (∀ (sq : Square) (v : Int),
        (sq.setWidth v).toRectangle.getWidth = v ∧ (sq.setWidth v).toRectangle.getHeight = v
        ∧ (sq.setHeight v).toRectangle.getWidth = v
        ∧ (sq.setHeight v).toRectangle.getHeight = v)
    ∧ (∀ (sq : Square) (v : Int),
        (RectangleRef.square sq).setWidth v = RectangleRef.square (Square.new v)
        ∧ (RectangleRef.square sq).setHeight v = RectangleRef.square (Square.new v))
    ∧ (∀ (t : Int) (ds : List SquareCall),
        ((Square.new t).calls ds).toRectangle.getWidth
          = ((Square.new t).calls ds).toRectangle.getHeight)
    ∧ ((Square.new size).calls cs).toRectangle.area
        = ((Square.new size).calls cs).toRectangle.getWidth
          * ((Square.new size).calls cs).toRectangle.getWidth
    ∧ (RectangleRef.square ((Square.new size).calls cs)).area
        = (RectangleRef.square ((Square.new size).calls cs)).getWidth
          * (RectangleRef.square ((Square.new size).calls cs)).getWidth := by
  have hinv : ∀ (t : Int) (ds : List SquareCall),
      ((Square.new t).calls ds).toRectangle.m_width
        = ((Square.new t).calls ds).toRectangle.m_height :=
    fun t ds => Square.calls_width_eq_height (Square.new t) ds rfl
  have harea : ((Square.new size).calls cs).toRectangle.area
      = ((Square.new size).calls cs).toRectangle.getWidth
        * ((Square.new size).calls cs).toRectangle.getWidth := by
    have hw := wrapInt_of_inRange _ hfit
    simp only [Rectangle.area, Rectangle.getWidth] at hw ⊢
    rw [← hinv size cs]
    exact hw
  refine ⟨fun t => ⟨rfl, rfl⟩, fun sq v => ⟨rfl, rfl, rfl, rfl⟩, fun sq v => ⟨rfl, rfl⟩,
    hinv, harea, harea⟩

/-- Witness of the amended C15: `Square{5}` after `setWidth(7)` and `setHeight(3)`
has side 3, 9 fits an `int`, and `area()` returns 9. -/
theorem C15_square_invariant_witness :
    ((Square.new 5).calls [SquareCall.setWidth 7, SquareCall.setHeight 3]).toRectangle.getWidth
      = 3
    ∧ InIntRange (3 * 3)
    ∧ ((Square.new 5).calls [SquareCall.setWidth 7, SquareCall.setHeight 3]).toRectangle.area
      = ((Square.new 5).calls
            [SquareCall.setWidth 7, SquareCall.setHeight 3]).toRectangle.getWidth
          * ((Square.new 5).calls
            [SquareCall.setWidth 7, SquareCall.setHeight 3]).toRectangle.getWidth :=
  ⟨by decide, by decide,
    (C15_square_invariant 5 [SquareCall.setWidth 7, SquareCall.setHeight 3]
      (by decide)).2.2.2.2.1⟩

end DesignPatterns
